import Mathlib

/-!
Verification of the analysis library of solvation-analysis
(src/solvation_analysis/analysis_library.py) against its specification.

The coordination-event table (the `solvation_data` pandas DataFrame) is
embedded as a list of `Event` records.  Each pandas pipeline of the source is
translated step by step: a `groupby(...).count()` becomes a deduplicated key
list paired with occurrence counts, `pivot`/`unstack` with `fillna(0)` becomes
a keyed lookup with default 0, and normalisations become exact rational
arithmetic.  Pandas sorts group keys; since every derived table below is
consumed through keyed lookups or order-independent sums, key lists are kept
in deduplication order except where ordering is observable (Clustering), where
an explicit sort is used.
-/

/-- One row of the solvation_data table: a coordination event.  The pandas
frame is indexed by (frame, solvated_atom, atom_ix) and carries columns
res_name, res_ix and dist.  The dist column is only ever counted by the
analysis code, never compared, so its numeric type is immaterial. -/
structure Event where
  frame : Nat
  solvated_atom : Nat
  atom_ix : Nat
  res_name : String
  res_ix : Nat
  dist : Int
deriving DecidableEq, Repr

namespace SolvAna

/-! ### Speciation (`Speciation._compute_speciation`) -/

/-- The keys of `solvation_data.groupby(["frame", "solvated_atom", "res_name"])`:
the distinct (frame, solvated_atom, res_name) triples of the table. -/
def groupKeys (t : List Event) : List (Nat × Nat × String) :=
  (t.map fun e => (e.frame, e.solvated_atom, e.res_name)).dedup

/-- `groupby(["frame", "solvated_atom", "res_name"]).count()["res_ix"]`: each
group key together with the size of its group (the number of table rows
carrying that key; `count` on a mandatory column counts rows). -/
def countsTable (t : List Event) : List ((Nat × Nat × String) × Nat) :=
  (groupKeys t).map fun k =>
    (k, (t.map fun e => (e.frame, e.solvated_atom, e.res_name)).count k)

/-- The distinct residue names of the table: the column labels produced by
`pivot(columns=["res_name"])` (`speciation_data.columns.levels[1]`). -/
def resNames (t : List Event) : List String :=
  (t.map Event.res_name).dedup

/-- The distinct (frame, solvated_atom) pairs of the table: the row index of
the pivoted speciation table.  A pair is present exactly when the solute has
at least one event at that frame. -/
def observedPairs (t : List Event) : List (Nat × Nat) :=
  (t.map fun e => (e.frame, e.solvated_atom)).dedup

/-- One row of the pivoted table for the (frame, solute) pair (f, s): for each
residue-name column, the group count if the (f, s, name) group exists and 0
otherwise (`pivot(columns=["res_name"]).fillna(0)`). -/
def shellRow (t : List Event) (f s : Nat) : List (String × Nat) :=
  (resNames t).map fun r => (r, ((countsTable t).lookup (f, s, r)).getD 0)

/-- `speciation_data`: the pivoted table, one row per observed
(frame, solvated_atom) pair. -/
def speciation_data (t : List Event) : List ((Nat × Nat) × List (String × Nat)) :=
  (observedPairs t).map fun p => (p, shellRow t p.1 p.2)

/-- The rows of `speciation_data` without their index, as grouped by
`speciation_data.groupby(speciation_data.columns.to_list())`. -/
def shellRows (t : List Event) : List (List (String × Nat)) :=
  (observedPairs t).map fun p => shellRow t p.1 p.2

/-- `groupby(columns).size()`: each distinct shell composition with the number
of (frame, solute) rows having exactly that composition. -/
def shellGroups (t : List Event) : List (List (String × Nat) × Nat) :=
  (shellRows t).dedup.map fun v => (v, (shellRows t).count v)

/-- `speciation_percent`: the shell-type distribution, sorted descending by
occurrence count (`sort_values(ascending=False)`; ties are left in list order,
the source's unstable sort fixes no tie order) and normalised by
n_frames * n_solutes. -/
def speciation_percent (t : List Event) (nf ns : Nat) :
    List (List (String × Nat) × ℚ) :=
  (List.insertionSort (fun a b => b.2 ≤ a.2) (shellGroups t)).map fun g =>
    (g.1, (g.2 : ℚ) / (nf * ns))

/-- `Speciation.shell_percent`: builds a conjunctive equality query from
shell_dict and sums the matching frequencies.  An empty shell_dict joins to
the empty query string, which `DataFrame.query` rejects (pandas raises
ValueError "expr cannot be an empty string"); an unknown residue name makes
the query name resolution fail (pandas UndefinedVariableError).  Both error
paths are embedded as `Except.error`. -/
def shell_percent (t : List Event) (nf ns : Nat) (spec : List (String × Nat)) :
    Except String ℚ :=
  if spec = [] then Except.error "expr cannot be an empty string"
  else if spec.all fun p => (resNames t).contains p.1 then
    Except.ok ((((speciation_percent t nf ns).filter fun row =>
      spec.all fun p => row.1.lookup p.1 == some p.2).map fun row => row.2).sum)
  else Except.error "name is not defined"

/-! ### Specification-side counting functions, written directly from the
claims rather than from the pandas pipeline, for comparison. -/

/-- The number of coordination events (table rows, i.e. coordinating atoms)
of residue type r for solute s at frame f. -/
def eventCount (t : List Event) (f s : Nat) (r : String) : Nat :=
  (t.filter fun e => e.frame == f && e.solvated_atom == s && e.res_name == r).length

/-- The number of distinct coordinating residues (deduplicated by residue
index) of type r for solute s at frame f. -/
def distinctResCount (t : List Event) (f s : Nat) (r : String) : Nat :=
  ((t.filter fun e => e.frame == f && e.solvated_atom == s && e.res_name == r).map
    Event.res_ix).dedup.length

/-- The total coordinating-residue-count of type r at frame f: every event of
that type at that frame contributes one. -/
def typeFrameTotal (t : List Event) (r : String) (f : Nat) : Nat :=
  (t.filter fun e => e.res_name == r && e.frame == f).length

/-- The number of distinct solutes having at least one coordinating residue
of type r at frame f (boolean presence per solute-frame pair). -/
def numSolutesWith (t : List Event) (r : String) (f : Nat) : Nat :=
  ((t.filter fun e => e.frame == f && e.res_name == r).map
    Event.solvated_atom).toFinset.card

/-! ### Coordination (`Coordination._average_cn`) -/

/-- The keys of `counts.groupby(["res_name", "frame"])`: the distinct
(res_name, frame) pairs of the table. -/
def resFrameKeys (t : List Event) : List (String × Nat) :=
  (t.map fun e => (e.res_name, e.frame)).dedup

/-- `cn_series`: per (res_name, frame), the sum of the per-solute group counts
divided by n_solutes * n_frames. -/
def cn_series (t : List Event) (nf ns : Nat) : List ((String × Nat) × ℚ) :=
  (resFrameKeys t).map fun k =>
    (k, ((((countsTable t).filter fun g =>
      g.1.2.2 == k.1 && g.1.1 == k.2).map fun g => (g.2 : ℚ)).sum) / (ns * nf))

/-- `cn_by_frame = cn_series.unstack()`: unstacking only reshapes the keyed
series into a res_name-by-frame table, leaving every keyed value unchanged,
so the embedding keeps the keyed form. -/
def cn_by_frame (t : List Event) (nf ns : Nat) : List ((String × Nat) × ℚ) :=
  cn_series t nf ns

/-- `cn_dict = cn_series.groupby(["res_name"]).sum().to_dict()`. -/
def cn_dict (t : List Event) (nf ns : Nat) : List (String × ℚ) :=
  (resNames t).map fun r =>
    (r, (((cn_series t nf ns).filter fun kv => kv.1.1 == r).map fun kv => kv.2).sum)

/-! ### Pairing (`Pairing._percent_coordinated`, `Pairing._percent_free_solvent`) -/

/-- `counts.astype(bool).groupby(["res_name", "frame"]).sum() / n_solutes`:
every (frame, solute, res_name) group is nonempty so casts to True, hence the
per-(res_name, frame) sum is the number of distinct solutes with at least one
event of that type at that frame. -/
def pairing_series (t : List Event) (ns : Nat) : List ((String × Nat) × ℚ) :=
  (resFrameKeys t).map fun k =>
    (k, (((groupKeys t).filter fun g => g.1 == k.2 && g.2.2 == k.1).length : ℚ) / ns)

/-- `pairing_by_frame = pairing_series.unstack()`: reshaping only. -/
def pairing_by_frame (t : List Event) (ns : Nat) : List ((String × Nat) × ℚ) :=
  pairing_series t ns

/-- `pairing_dict`: pairing_series divided by n_frames and summed per
res_name. -/
def pairing_dict (t : List Event) (nf ns : Nat) : List (String × ℚ) :=
  (resNames t).map fun r =>
    (r, (((pairing_series t ns).filter fun kv => kv.1.1 == r).map
      fun kv => kv.2 / (nf : ℚ)).sum)

/-- The keys of `groupby(["frame", "res_ix", "res_name"])` used by
`_percent_free_solvent`: distinct (frame, res_ix, res_name) triples. -/
def freeKeys (t : List Event) : List (Nat × Nat × String) :=
  (t.map fun e => (e.frame, e.res_ix, e.res_name)).dedup

/-- `percent_free_solvents`: per observed residue name, one minus the number
of coordinated (frame, residue-instance) groups divided by n_frames and by the
population of that type.  The index of `totals` is the set of residue names
observed in the event table, so never-coordinating types yield no entry. -/
def percent_free_solvent (t : List Event) (nf : Nat)
    (solvent_counts : List (String × Nat)) : List (String × ℚ) :=
  (resNames t).map fun r =>
    (r, 1 - (((freeKeys t).filter fun k => k.2.2 == r).length : ℚ) / nf /
      ((solvent_counts.lookup r).getD 0))

/-! ### Residence (`Residence._calculate_residence_coordination`,
`Residence._calculate_residence_time`)

The numeric heart of Residence (statsmodels acovf over floats, the scipy
nonlinear least-squares fit) is external third-party code; it is represented
by oracles: `acovOf` stands for the averaged auto-covariance curve computed
for one residue type, and `fit` stands for `scipy.optimize.curve_fit`,
returning `some (a, b, c)` on convergence and `none` when the fit raises
RuntimeError (failure to converge) - the only exception the source catches.
NaN results are represented by `none` inside `Option`. -/

/-- `auto_covariance / auto_covariance[0]`: normalisation by the zero-lag
value, performed before the fit is attempted. -/
def normCurve (acov : List ℚ) : List ℚ :=
  acov.map fun x => x / acov.headD 0

/-- `Residence._calculate_residence_time`: try the curve fit on the
normalised curve; on convergence the residence time is 1 / b, on
RuntimeError both the time and the parameter triple are NaN. -/
def calculate_residence_time (fit : List ℚ → Option (ℚ × ℚ × ℚ))
    (acov : List ℚ) : Option ℚ × (Option ℚ × Option ℚ × Option ℚ) :=
  match fit (normCurve acov) with
  | some (a, b, c) => (some (1 / b), (some a, some b, some c))
  | none => (none, (none, none, none))

/-- `Residence._calculate_residence_coordination`: loop over the residue
types of the table (the `groupby(['res_name'])` keys) and record each
residence time and parameter triple independently. -/
def calculate_residence_coordination (fit : List ℚ → Option (ℚ × ℚ × ℚ))
    (acovOf : String → List ℚ) (t : List Event) :
    List (String × Option ℚ) × List (String × (Option ℚ × Option ℚ × Option ℚ)) :=
  ((resNames t).map fun r => (r, (calculate_residence_time fit (acovOf r)).1),
   (resNames t).map fun r => (r, (calculate_residence_time fit (acovOf r)).2))

/-! ### Clustering (`Clustering.generate_clusters`,
`Clustering.unwrap_adjacency_dataframe`) -/

/-- The subset of the table whose res_name is among the requested solvents
(`solvation_data[np.isin(solvation_data.res_name, solvents)]`). -/
def clusterSubset (t : List Event) (solvents : List String) : List Event :=
  t.filter fun e => solvents.contains e.res_name

/-- Reindexing of the solute identifiers to residue indices
(`reindexed_subset.solvated_atom = solute_res_ix[reindexed_subset.solvated_atom]`). -/
def reindexSubset (t : List Event) (solvents : List String)
    (solute_res_ix : Nat → Nat) : List Event :=
  (clusterSubset t solvents).map fun e =>
    { e with solvated_atom := solute_res_ix e.solvated_atom }

/-- The frames iterated by `graph.groupby('frame')`, in ascending order
(pandas groupby sorts its keys). -/
def clusterFrames (u : List Event) : List Nat :=
  List.insertionSort (fun a b => a ≤ b) ((u.map Event.frame).dedup)

/-- The solute-side node labels of the frame-f graph: the distinct reindexed
solute residue indices with an event at frame f, in ascending order (the
sorted row index of the adjacency table). -/
def frameSolutes (u : List Event) (f : Nat) : List Nat :=
  List.insertionSort (fun a b => a ≤ b)
    (((u.filter fun e => e.frame == f).map Event.solvated_atom).dedup)

/-- The solvent-side node labels of the frame-f graph: the distinct residue
indices with an event at frame f, in ascending order (the sorted unstacked
columns, restricted by `df.loc[:, (df != 0).any(axis=0)]` to the columns
nonzero in this frame). -/
def frameSolvents (u : List Event) (f : Nat) : List Nat :=
  List.insertionSort (fun a b => a ≤ b)
    (((u.filter fun e => e.frame == f).map Event.res_ix).dedup)

/-- `ix_to_res_ix = np.concatenate([solvent_map, solute_map])`: the node
labels of the frame-f graph in matrix position order. -/
def nodeLabels (u : List Event) (f : Nat) : List Nat :=
  frameSolvents u f ++ frameSolutes u f

/-- The weight of the directed solute-to-solvent adjacency: the number of
events at frame f joining reindexed solute i to residue instance j
(`adjacency_group['dist'].count()`). -/
def atomWeight (u : List Event) (f i j : Nat) : Nat :=
  (u.filter fun e => e.frame == f && e.solvated_atom == i && e.res_ix == j).length

/-- `unwrap_adjacency_dataframe`, directed part: the connections table
reindexed to the square label list `idx = columns ++ index`; a position pair
holds the weight when its row label is a solute row and its column label a
solvent column, and 0 otherwise (`reindex(..., fill_value=0)`). -/
def directedAt (u : List Event) (f p q : Nat) : Nat :=
  let idx := nodeLabels u f
  let lp := idx.getD p 0
  let lq := idx.getD q 0
  if (frameSolutes u f).contains lp && (frameSolvents u f).contains lq then
    atomWeight u f lp lq
  else 0

/-- `undirected = directed.values + directed.values.T`. -/
def undirectedAt (u : List Event) (f p q : Nat) : Nat :=
  directedAt u f p q + directedAt u f q p

/-- One expansion step of reachability over the n-node graph: add every node
adjacent to the current set. -/
def reachStep (adj : Nat → Nat → Bool) (n : Nat) (s : List Nat) : List Nat :=
  (s ++ (List.range n).filter fun q => s.any fun p => adj p q).dedup

/-- All nodes reachable from p: n expansion steps saturate any n-node
graph. -/
def reachList (adj : Nat → Nat → Bool) (n p : Nat) : List Nat :=
  (reachStep adj n)^[n] [p]

/-- The least node of the connected component of p. -/
def minRep (adj : Nat → Nat → Bool) (n p : Nat) : Nat :=
  (reachList adj n p).foldr min p

/-- The component label of p as assigned by
`scipy.sparse.csgraph.connected_components`: components are numbered in order
of first appearance while scanning nodes 0, 1, ..., and the first node of a
component is its least node, so the label of p is the number of distinct
component representatives smaller than the representative of p. -/
def componentLabel (adj : Nat → Nat → Bool) (n p : Nat) : Nat :=
  ((((List.range n).map (minRep adj n)).dedup).filter fun m => m < minRep adj n p).length

/-- The rows contributed by frame f to the cluster table: one row per graph
node, carrying the frame, the component label of the node, and the residue
name and residue index of the node
(`np.vstack([frame, clusters, res_name_map[ix_to_res_ix], ix_to_res_ix]).T`). -/
def frameClusterRows (u : List Event) (res_name_map : Nat → String) (f : Nat) :
    List (Nat × Nat × String × Nat) :=
  let idx := nodeLabels u f
  let n := idx.length
  let adj := fun p q => undirectedAt u f p q != 0
  (List.range n).map fun p =>
    (f, componentLabel adj n p, res_name_map (idx.getD p 0), idx.getD p 0)

/-- Strict lexicographic comparison of character lists by code point, the
comparison Python applies to strings. -/
def charListLt : List Char → List Char → Bool
  | [], [] => false
  | [], _ :: _ => true
  | _ :: _, [] => false
  | a :: as, b :: bs =>
    if a.toNat < b.toNat then true
    else if b.toNat < a.toNat then false
    else charListLt as bs

/-- Strict string comparison by code point. -/
def strLtB (a b : String) : Bool :=
  charListLt a.data b.data

/-- The sort key order actually applied by the final
`sort_values(['frame', 'cluster'])`: `np.vstack` promotes the integer frame
and cluster columns to the string dtype of the res_name column, so the sort
compares the decimal string forms of frame and cluster lexicographically. -/
def rowKeyLE (a b : Nat × Nat × String × Nat) : Bool :=
  strLtB (toString a.1) (toString b.1) ||
    (toString a.1 == toString b.1 && !(strLtB (toString b.2.1) (toString a.2.1)))

/-- `Clustering.generate_clusters`: restrict to the requested solvents,
reindex solutes to residue indices, build the per-frame symmetrised
adjacency, label connected components per frame, and concatenate and sort
the resulting rows (frame, cluster, res_name, res_ix). -/
def generate_clusters (t : List Event) (solvents : List String)
    (solute_res_ix : Nat → Nat) (res_name_map : Nat → String) :
    List (Nat × Nat × String × Nat) :=
  let u := reindexSubset t solvents solute_res_ix
  List.insertionSort (fun a b => rowKeyLE a b = true)
    (((clusterFrames u).map (frameClusterRows u res_name_map)).flatten)

/-! ### Helper lemmas -/

/-- Looking up a key present in a keyed table built by mapping a graph
function over a key list yields the function value at that key. -/
theorem lookup_map_self {α β : Type} [BEq α] [LawfulBEq α] (g : α → β)
    {l : List α} {a : α} (h : a ∈ l) :
    (l.map fun x => (x, g x)).lookup a = some (g a) := by
  induction l with
  | nil => simp at h
  | cons x l ih =>
    rcases List.mem_cons.mp h with rfl | hmem
    · simp [List.lookup]
    · by_cases hax : (a == x) = true
      · have hx := eq_of_beq hax
        subst hx
        simp [List.lookup]
      · simp only [Bool.not_eq_true] at hax
        simp [List.lookup, hax, ih hmem]

/-- Looking up a key absent from the key list yields none. -/
theorem lookup_map_none {α β : Type} [BEq α] [LawfulBEq α] (g : α → β)
    {l : List α} {a : α} (h : a ∉ l) :
    (l.map fun x => (x, g x)).lookup a = none := by
  induction l with
  | nil => simp [List.lookup]
  | cons x l ih =>
    simp only [List.mem_cons, not_or] at h
    have hax : (a == x) = false := by simp [h.1]
    simp [List.lookup, hax, ih h.2]

/-- The multiplicity of a (frame, solute, res_name) key among the key images
of the table equals the number of events with those fields. -/
theorem count_key_eq_eventCount (t : List Event) (f s : Nat) (r : String) :
    (t.map fun e => (e.frame, e.solvated_atom, e.res_name)).count (f, s, r)
      = eventCount t f s r := by
  rw [List.count_eq_countP, List.countP_map, eventCount, ← List.countP_eq_length_filter]
  refine List.countP_congr ?_
  intro e _
  simp [Function.comp, Prod.ext_iff, and_assoc]

/-- The pivoted-and-filled entry of the counts table at (f, s, r) equals the
number of events with those fields, whether or not the group exists. -/
theorem countsTable_lookup (t : List Event) (f s : Nat) (r : String) :
    (((countsTable t).lookup (f, s, r)).getD 0) = eventCount t f s r := by
  by_cases h : (f, s, r) ∈ groupKeys t
  · rw [countsTable, lookup_map_self _ h, Option.getD_some, count_key_eq_eventCount]
  · rw [countsTable, lookup_map_none _ h, Option.getD_none]
    rw [groupKeys, List.mem_dedup] at h
    symm
    rw [eventCount, List.length_eq_zero, List.filter_eq_nil_iff]
    intro e he hbe
    simp only [Bool.and_eq_true, beq_iff_eq] at hbe
    exact h (List.mem_map.mpr ⟨e, he, by simp [hbe.1.1, hbe.1.2, hbe.2]⟩)

/-- Looking up a residue-name column in a shell row yields the event count of
that type for the row's (frame, solute) pair. -/
theorem shellRow_lookup {t : List Event} {r : String} (f s : Nat)
    (hr : r ∈ resNames t) :
    (shellRow t f s).lookup r = some (eventCount t f s r) := by
  rw [shellRow, lookup_map_self (fun r => ((countsTable t).lookup (f, s, r)).getD 0) hr,
    countsTable_lookup]

/-- Looking up an observed (frame, solute) pair in the speciation table
yields its shell row. -/
theorem speciation_data_lookup {t : List Event} {f s : Nat}
    (h : (f, s) ∈ observedPairs t) :
    (speciation_data t).lookup (f, s) = some (shellRow t f s) := by
  rw [speciation_data]
  exact lookup_map_self (fun p : Nat × Nat => shellRow t p.1 p.2) h

/-! ### Concrete event tables used by the claim theorems -/

/-- Two coordination events of one solute with the same residue instance
(res_ix 5) through two different atoms, at one frame. -/
def tC1 : List Event := [⟨0, 0, 10, "A", 5, 0⟩, ⟨0, 0, 11, "A", 5, 0⟩]

/-- One frame, only residue type A ever coordinates. -/
def tC2 : List Event := [⟨0, 0, 0, "A", 1, 0⟩]

/-- One type-A event at frame 0 of a two-frame trajectory. -/
def tC3 : List Event := [⟨0, 0, 0, "A", 1, 0⟩]

/-- One frame, two solutes, but only solute 0 has a coordination event. -/
def tC4 : List Event := [⟨0, 0, 0, "A", 1, 0⟩]

/-- A complete table: one frame, two solutes, both coordinated. -/
def tC4w : List Event := [⟨0, 0, 0, "A", 1, 0⟩, ⟨0, 1, 1, "A", 2, 0⟩]

/-- A nonempty table for the empty-query counterexample. -/
def tC5 : List Event := [⟨0, 0, 0, "A", 1, 0⟩]

/-- Two frames, two solutes: both solutes touch type A at frame 0, solute 0
touches it again at frame 1. -/
def tC6 : List Event :=
  [⟨0, 0, 0, "A", 1, 0⟩, ⟨0, 1, 1, "A", 2, 0⟩, ⟨1, 0, 2, "A", 1, 0⟩]

/-- Two residue types, each with one event. -/
def tC7 : List Event := [⟨0, 0, 0, "A", 1, 0⟩, ⟨0, 0, 1, "B", 2, 0⟩]

/-- A curve-fit oracle that fails (RuntimeError) exactly on one-point curves
and converges to (a, b, c) = (1, 2, 0) on longer curves. -/
def fitC7 : List ℚ → Option (ℚ × ℚ × ℚ) :=
  fun l => if l.length = 1 then none else some (1, 2, 0)

/-- An auto-covariance oracle: type A gets the one-point curve [3], every
other type gets the two-point curve [2, 4]. -/
def acovC7 : String → List ℚ :=
  fun r => if r = "A" then [3] else [2, 4]

/-- Frames 2 and 10, one solute (residue index 3 via the solute map), each
frame with a single coordinating residue instance. -/
def tC9 : List Event := [⟨2, 0, 50, "S", 7, 0⟩, ⟨10, 0, 51, "S", 8, 0⟩]

/-- A one-event table for the C10 witness. -/
def tC10 : List Event := [⟨0, 0, 0, "A", 1, 0⟩]

/-! ### Claim theorems -/

/-- C1: the claim says the speciation entry at (frame, solute) for residue
type R is the number of distinct coordinating residues of type R.  In tC1
solute 0 at frame 0 is coordinated by a single residue instance of type A
through two atoms: the table entry is the row (atom) count 2, not the
distinct-residue count 1, because the pipeline groups and counts rows and
never de-duplicates by residue index. -/
theorem speciation_entry_counts_atoms :
    (speciation_data tC1).lookup (0, 0) = some [("A", 2)]
      ∧ distinctResCount tC1 0 0 "A" = 1
      ∧ eventCount tC1 0 0 "A" = 2 := by decide

/-- C2: residue type B is present in n_solvents with population 1 but has no
event; the claim says percent_free_solvents must contain B with value 1.0,
yet the source indexes the result by the observed residue names only, so B
is silently absent. -/
theorem free_solvent_missing_type_absent :
    (percent_free_solvent tC2 1 [("A", 1), ("B", 1)]).lookup "B" = none
      ∧ List.lookup "B" [("A", 1), ("B", 1)] = some 1 := by decide

/-- C5 counterexample: shell_percent applied to the empty specification does
not return 1.0; the joined query is the empty string, which the query engine
rejects, so the call errors out. -/
theorem shell_percent_empty_counterexample :
    shell_percent tC5 1 1 [] ≠ Except.ok 1 := by
  simp [shell_percent]

/-- C5 amended: calling shell_percent with the empty specification mapping
always fails with the empty-query-string error instead of returning 1.0. -/
theorem shell_percent_empty_spec_errors (t : List Event) (nf ns : Nat) :
    shell_percent t nf ns [] = Except.error "expr cannot be an empty string" := rfl

/-- C8: one frame in which two distinct solutes (residue indices 3 and 4
under the solute map) each have a coordination event with the same residue
instance 7 of the requested type S.  generate_clusters returns exactly one
cluster (label 0) with exactly three members: the shared residue and both
solutes, because the solute-to-solvent adjacency is symmetrised before the
connected-component pass. -/
theorem shared_residue_single_cluster :
    generate_clusters [⟨0, 0, 100, "S", 7, 0⟩, ⟨0, 1, 101, "S", 7, 0⟩] ["S"]
      (fun s => s + 3) (fun i => if i == 7 then "S" else "Li")
      = [(0, 0, "S", 7), (0, 0, "Li", 3), (0, 0, "Li", 4)] := by decide

/-- C9: the claim says the cluster table is sorted in non-decreasing numeric
frame order, frame 2 before frame 10.  The source stacks the integer frame
and cluster columns together with the string res_name column, which promotes
them to strings, and the final sort compares those strings: the rows of
frame 10 come first because the string "10" precedes the string "2". -/
theorem cluster_table_sorted_as_strings :
    generate_clusters tC9 ["S"] (fun s => s + 3)
      (fun i => if i == 7 || i == 8 then "S" else "Li")
      = [(10, 0, "S", 8), (10, 0, "Li", 3), (2, 0, "S", 7), (2, 0, "Li", 3)] := by
  decide

/-- The occurrence count of an element does not depend on which lawful BEq
instance is used. -/
theorem count_decEq {α : Type} [BEq α] [LawfulBEq α] [DecidableEq α]
    (a : α) (l : List α) :
    @List.count α instBEqOfDecidableEq a l = l.count a := by
  rw [@List.count_eq_countP α instBEqOfDecidableEq, List.count_eq_countP]
  refine List.countP_congr ?_
  intro x _
  simp only [beq_iff_eq, decide_eq_true_eq]

/-- Filtering the counts table by a key predicate and summing the group
counts yields the number of events whose key satisfies the predicate. -/
theorem countsTable_filter_sum (t : List Event) (P : Nat × Nat × String → Bool) :
    (((countsTable t).filter fun g => P g.1).map fun g => (g.2 : ℚ)).sum
      = ((t.map fun e => (e.frame, e.solvated_atom, e.res_name)).countP P : ℚ) := by
  rw [countsTable, groupKeys, List.filter_map, List.map_map]
  simp only [Function.comp_def]
  rw [← List.sum_map_count_dedup_filter_eq_countP P, Nat.cast_list_sum, List.map_map]
  simp only [Function.comp_def, count_decEq]

/-- Counting (frame, solute, res_name) keys with a given res_name and frame
counts the events of that type at that frame. -/
theorem countP_key_typeFrame (t : List Event) (r : String) (f : Nat) :
    (t.map fun e => (e.frame, e.solvated_atom, e.res_name)).countP
      (fun g => g.2.2 == r && g.1 == f) = typeFrameTotal t r f := by
  rw [List.countP_map, typeFrameTotal, ← List.countP_eq_length_filter]
  refine List.countP_congr ?_
  intro e _
  simp [Function.comp]

/-- For every observed (res_name, frame) key, the cn_by_frame entry equals
the type-frame event total divided by n_solutes * n_frames. -/
theorem cn_by_frame_lookup {t : List Event} (nf ns : Nat) {r : String} {f : Nat}
    (h : (r, f) ∈ resFrameKeys t) :
    (cn_by_frame t nf ns).lookup (r, f)
      = some ((typeFrameTotal t r f : ℚ) / (ns * nf)) := by
  rw [cn_by_frame, cn_series,
    lookup_map_self (fun k : String × Nat => ((((countsTable t).filter fun g =>
      g.1.2.2 == k.1 && g.1.1 == k.2).map fun g => (g.2 : ℚ)).sum) / (ns * nf)) h]
  have hs : (((countsTable t).filter fun g =>
      g.1.2.2 == r && g.1.1 == f).map fun g => (g.2 : ℚ)).sum
      = ((typeFrameTotal t r f : ℕ) : ℚ) := by
    rw [countsTable_filter_sum t (fun g => g.2.2 == r && g.1 == f),
      countP_key_typeFrame]
  exact congrArg some (by rw [hs])

/-- C3 counterexample: one type-A event at frame 0 of a 2-frame, 1-solute
run.  The claim value, the frame total divided by n_solutes only, is 1, but
cn_by_frame stores the frame total divided by n_solutes * n_frames, 1/2. -/
theorem cn_by_frame_counterexample :
    (cn_by_frame tC3 2 1).lookup ("A", 0) = some (1 / 2)
      ∧ (cn_by_frame tC3 2 1).lookup ("A", 0)
          ≠ some ((typeFrameTotal tC3 "A" 0 : ℚ) / 1) := by
  have h1 := cn_by_frame_lookup 2 1 (show ("A", 0) ∈ resFrameKeys tC3 by decide)
  have h2 : typeFrameTotal tC3 "A" 0 = 1 := rfl
  rw [h2] at h1
  rw [h1, h2]
  norm_num

/-- C3 amended: for every observed (residue type, frame) key, the per-frame
coordination table holds the total coordinating-residue count of that type
at that frame divided by n_solutes * n_frames (not by n_solutes alone). -/
theorem cn_by_frame_entry (t : List Event) (nf ns : Nat) {r : String} {f : Nat}
    (h : (r, f) ∈ resFrameKeys t) :
    (cn_by_frame t nf ns).lookup (r, f)
      = some ((typeFrameTotal t r f : ℚ) / (ns * nf)) :=
  cn_by_frame_lookup nf ns h

/-- C3 witness: the amended statement evaluated on tC3. -/
theorem cn_by_frame_entry_witness :
    (cn_by_frame tC3 2 1).lookup ("A", 0) = some ((1 : ℚ) / 2) := by
  have h := cn_by_frame_entry tC3 2 1 (show ("A", 0) ∈ resFrameKeys tC3 by decide)
  have h2 : typeFrameTotal tC3 "A" 0 = 1 := rfl
  rw [h, h2]
  norm_num

/-- Membership in the speciation row index is equivalent to the existence of
a coordination event for that (frame, solute) pair. -/
theorem mem_observedPairs {t : List Event} {f s : Nat} :
    (f, s) ∈ observedPairs t ↔ ∃ e ∈ t, e.frame = f ∧ e.solvated_atom = s := by
  simp [observedPairs, Prod.ext_iff]

/-- The frequencies of the shell-type distribution sum to the number of
observed (frame, solute) pairs divided by n_frames * n_solutes: exactly one
distribution row counts each observed pair, and unobserved pairs contribute
nothing. -/
theorem speciation_percent_sum (t : List Event) (nf ns : Nat) :
    ((speciation_percent t nf ns).map fun g => g.2).sum
      = ((observedPairs t).length : ℚ) / (nf * ns) := by
  rw [speciation_percent, List.map_map]
  have hperm := (List.perm_insertionSort
    (fun a b : List (String × Nat) × Nat => b.2 ≤ a.2) (shellGroups t)).map
    ((fun g : List (String × Nat) × ℚ => g.2) ∘
      fun g : List (String × Nat) × Nat => (g.1, (g.2 : ℚ) / (nf * ns)))
  rw [hperm.sum_eq, shellGroups, List.map_map]
  simp only [Function.comp_def]
  have hsum : ((shellRows t).dedup.map fun v => ((shellRows t).count v : ℚ)).sum
      = ((shellRows t).length : ℚ) := by
    rw [← List.sum_map_count_dedup_eq_length (shellRows t), Nat.cast_list_sum,
      List.map_map]
    simp only [Function.comp_def, count_decEq]
  simp only [div_eq_mul_inv]
  rw [List.sum_map_mul_right, hsum, shellRows, List.length_map]

/-- C4 counterexample: tC4 has one frame and two solutes but only solute 0
has an event, so the distribution contains no all-zero shell row, and its
frequencies sum to 1/2, not 1 - the missing solute-frame pair is dropped
rather than counted as an all-zero shell. -/
theorem speciation_percent_sum_counterexample :
    ((speciation_percent tC4 1 2).map fun g => g.2).sum ≠ 1
      ∧ ((speciation_percent tC4 1 2).map fun g => g.2).sum = 1 / 2
      ∧ ∀ g ∈ speciation_percent tC4 1 2, g.1 ≠ [("A", 0)] := by
  have h := speciation_percent_sum tC4 1 2
  have hlen : (observedPairs tC4).length = 1 := rfl
  rw [hlen] at h
  refine ⟨?_, ?_, ?_⟩
  · rw [h]; norm_num
  · rw [h]; norm_num
  · decide

/-- For a table covering every (frame, solute) pair of the full domain, the
number of observed pairs is n_frames * n_solutes. -/
theorem observedPairs_length_complete {t : List Event} {nf ns : Nat}
    (hfull : ∀ f < nf, ∀ s < ns, (f, s) ∈ observedPairs t)
    (hbound : ∀ e ∈ t, e.frame < nf ∧ e.solvated_atom < ns) :
    (observedPairs t).length = nf * ns := by
  have hnd : (observedPairs t).Nodup := List.nodup_dedup _
  have hset : (observedPairs t).toFinset = Finset.range nf ×ˢ Finset.range ns := by
    ext p
    rcases p with ⟨f, s⟩
    simp only [List.mem_toFinset, Finset.mem_product, Finset.mem_range]
    constructor
    · intro hp
      rcases mem_observedPairs.mp hp with ⟨e, he, hf, hs⟩
      rcases hbound e he with ⟨h1, h2⟩
      exact ⟨hf ▸ h1, hs ▸ h2⟩
    · rintro ⟨h1, h2⟩
      exact hfull f h1 s h2
  calc (observedPairs t).length
      = (observedPairs t).toFinset.card := (List.toFinset_card_of_nodup hnd).symm
    _ = (Finset.range nf ×ˢ Finset.range ns).card := by rw [hset]
    _ = nf * ns := by rw [Finset.card_product, Finset.card_range, Finset.card_range]

/-- C4 amended: when every (frame, solute) pair of the full domain has at
least one coordination event, the shell-type distribution frequencies sum to
exactly 1.  (Without that completeness the sum is the observed fraction; a
solute-frame pair with no events is omitted, not counted as an all-zero
shell.) -/
theorem speciation_percent_sum_complete (t : List Event) (nf ns : Nat)
    (hfull : ∀ f < nf, ∀ s < ns, (f, s) ∈ observedPairs t)
    (hbound : ∀ e ∈ t, e.frame < nf ∧ e.solvated_atom < ns)
    (hnf : 0 < nf) (hns : 0 < ns) :
    ((speciation_percent t nf ns).map fun g => g.2).sum = 1 := by
  rw [speciation_percent_sum, observedPairs_length_complete hfull hbound,
    Nat.cast_mul]
  exact div_self (mul_ne_zero (Nat.cast_ne_zero.mpr hnf.ne')
    (Nat.cast_ne_zero.mpr hns.ne'))

/-- C4 witness: the amended statement evaluated on the complete table tC4w. -/
theorem speciation_percent_sum_complete_witness :
    ((speciation_percent tC4w 1 2).map fun g => g.2).sum = 1 :=
  speciation_percent_sum_complete tC4w 1 2 (by decide) (by decide)
    (by decide) (by decide)

/-- Counting the (frame, solute, res_name) group keys with a fixed frame and
residue name counts the distinct solutes with at least one matching event:
the boolean-presence reduction of `_percent_coordinated`. -/
theorem groupKeys_filter_length (t : List Event) (k : String × Nat) :
    ((groupKeys t).filter fun g => g.1 == k.2 && g.2.2 == k.1).length
      = numSolutesWith t k.1 k.2 := by
  have hnd : ((groupKeys t).filter fun g => g.1 == k.2 && g.2.2 == k.1).Nodup :=
    (List.nodup_dedup _).filter _
  rw [numSolutesWith, ← List.toFinset_card_of_nodup hnd]
  have hinj : Function.Injective (fun s : Nat => (k.2, s, k.1)) := by
    intro a b hab
    simpa using congrArg (fun x : Nat × Nat × String => x.2.1) hab
  have himg : ((groupKeys t).filter fun g => g.1 == k.2 && g.2.2 == k.1).toFinset
      = Finset.image (fun s => (k.2, s, k.1))
        ((t.filter fun e => e.frame == k.2 && e.res_name == k.1).map
          Event.solvated_atom).toFinset := by
    ext x
    simp only [List.mem_toFinset, List.mem_filter, groupKeys, List.mem_dedup,
      List.mem_map, Finset.mem_image, Bool.and_eq_true, beq_iff_eq]
    constructor
    · rintro ⟨⟨e, he, hkey⟩, hf, hr⟩
      subst hkey
      dsimp only at hf hr
      refine ⟨e.solvated_atom, ⟨e, ⟨he, hf, hr⟩, rfl⟩, ?_⟩
      rw [← hf, ← hr]
    · rintro ⟨s, ⟨e, ⟨he, hfe, hre⟩, hs⟩, hx⟩
      subst hs
      subst hx
      exact ⟨⟨e, he, by rw [hfe, hre]⟩, rfl, rfl⟩
  rw [himg, Finset.card_image_of_injective _ hinj]

/-- Looking up a residue name in pairing_dict yields the sum, over the
observed (res_name, frame) keys of that name, of the distinct-solute counts
divided by n_solutes and n_frames. -/
theorem pairing_dict_lookup {t : List Event} {r : String} (nf ns : Nat)
    (hr : r ∈ resNames t) :
    (pairing_dict t nf ns).lookup r
      = some ((((resFrameKeys t).filter fun k => k.1 == r).map
          fun k => ((((groupKeys t).filter fun g =>
            g.1 == k.2 && g.2.2 == k.1).length : ℚ) / ns) / nf).sum) := by
  rw [pairing_dict,
    lookup_map_self (fun r => (((pairing_series t ns).filter
      fun kv => kv.1.1 == r).map fun kv => kv.2 / (nf : ℚ)).sum) hr]
  congr 1
  rw [pairing_series, List.filter_map, List.map_map]
  simp only [Function.comp_def]

/-- A residue type with no event of a given frame has a zero distinct-solute
count there. -/
theorem numSolutesWith_eq_zero {t : List Event} {r : String} {f : Nat}
    (h : ∀ e ∈ t, ¬(e.res_name = r ∧ e.frame = f)) :
    numSolutesWith t r f = 0 := by
  have hnil : (t.filter fun e => e.frame == f && e.res_name == r) = [] := by
    rw [List.filter_eq_nil_iff]
    intro e he
    simp only [Bool.and_eq_true, beq_iff_eq, not_and]
    intro hf hr2
    exact (h e he) ⟨hr2, hf⟩
  rw [numSolutesWith, hnil]
  rfl

/-- The per-name pairing sum over observed keys equals the sum of the
distinct-solute counts over the full frame range, divided by
n_solutes * n_frames. -/
theorem pairing_filter_sum (t : List Event) (r : String) (nf ns : Nat)
    (hbound : ∀ e ∈ t, e.frame < nf) :
    (((resFrameKeys t).filter fun k => k.1 == r).map
      fun k => ((((groupKeys t).filter fun g =>
        g.1 == k.2 && g.2.2 == k.1).length : ℚ) / ns) / nf).sum
      = (∑ f in Finset.range nf, (numSolutesWith t r f : ℚ)) / ((ns : ℚ) * nf) := by
  simp only [groupKeys_filter_length]
  have hnd : ((resFrameKeys t).filter fun k => k.1 == r).Nodup :=
    (List.nodup_dedup _).filter _
  rw [← List.sum_toFinset _ hnd]
  have himg : ((resFrameKeys t).filter fun k => k.1 == r).toFinset
      = Finset.image (fun f => (r, f))
        ((t.filter fun e => e.res_name == r).map Event.frame).toFinset := by
    ext k
    simp only [List.mem_toFinset, List.mem_filter, resFrameKeys, List.mem_dedup,
      List.mem_map, Finset.mem_image, beq_iff_eq]
    constructor
    · rintro ⟨⟨e, he, hkey⟩, hrk⟩
      subst hkey
      dsimp only at hrk
      refine ⟨e.frame, ⟨e, ⟨he, hrk⟩, rfl⟩, ?_⟩
      rw [← hrk]
    · rintro ⟨f, ⟨e, ⟨he, hre⟩, hf⟩, hx⟩
      subst hf
      subst hx
      exact ⟨⟨e, he, by rw [hre]⟩, rfl⟩
  rw [himg, Finset.sum_image (by intro a _ b _ hab; simpa using hab)]
  simp only [div_div]
  rw [← Finset.sum_div]
  have hsub : ((t.filter fun e => e.res_name == r).map Event.frame).toFinset
      ⊆ Finset.range nf := by
    intro f hf
    simp only [List.mem_toFinset, List.mem_map, List.mem_filter, beq_iff_eq] at hf
    rcases hf with ⟨e, ⟨he, _⟩, hfe⟩
    exact Finset.mem_range.mpr (hfe ▸ hbound e he)
  have hzero : ∀ f ∈ Finset.range nf,
      f ∉ ((t.filter fun e => e.res_name == r).map Event.frame).toFinset →
      ((numSolutesWith t r f : ℕ) : ℚ) = 0 := by
    intro f _ hf
    simp only [List.mem_toFinset, List.mem_map, List.mem_filter, beq_iff_eq,
      not_exists, not_and] at hf
    have hz : numSolutesWith t r f = 0 := by
      refine numSolutesWith_eq_zero ?_
      intro e he
      rintro ⟨hre, hfe⟩
      exact hf e ⟨he, hre⟩ hfe
    rw [hz]
    norm_num
  rw [Finset.sum_subset hsub hzero]

/-- C6: pairing_dict at residue type R is the sum over all frames of the
number of solutes with at least one coordinating residue of type R at that
frame, divided by n_solutes * n_frames; a solute coordinated by several
residues of type R in one frame contributes exactly 1 (the count is over
distinct solutes). -/
theorem pairing_dict_counts_presence (t : List Event) (nf ns : Nat) (r : String)
    (hr : r ∈ resNames t) (hbound : ∀ e ∈ t, e.frame < nf) :
    (pairing_dict t nf ns).lookup r
      = some ((∑ f in Finset.range nf, (numSolutesWith t r f : ℚ))
          / ((ns : ℚ) * nf)) := by
  rw [pairing_dict_lookup nf ns hr, pairing_filter_sum t r nf ns hbound]

/-- C6 witness: on tC6 (frames 0 and 1, solutes 0 and 1), type A pairs with
2 solutes at frame 0 and 1 solute at frame 1, giving 3/(2*2) = 3/4. -/
theorem pairing_dict_counts_presence_witness :
    (pairing_dict tC6 2 2).lookup "A" = some ((3 : ℚ) / 4) := by
  have h := pairing_dict_counts_presence tC6 2 2 "A" (by decide) (by decide)
  have h0 : numSolutesWith tC6 "A" 0 = 2 := by decide
  have h1 : numSolutesWith tC6 "A" 1 = 1 := by decide
  rw [h, Finset.sum_range_succ, Finset.sum_range_succ, Finset.sum_range_zero,
    h0, h1]
  norm_num

/-- Every shell row of an observed (frame, solute) pair has a strictly
positive column: the column of the residue type of a witnessing event. -/
theorem shellRow_has_pos {t : List Event} {f s : Nat}
    (h : (f, s) ∈ observedPairs t) :
    ∃ pr ∈ shellRow t f s, 0 < pr.2 := by
  rcases mem_observedPairs.mp h with ⟨e, he, hf, hs⟩
  have hr : e.res_name ∈ resNames t := by
    rw [resNames, List.mem_dedup]
    exact List.mem_map.mpr ⟨e, he, rfl⟩
  refine ⟨(e.res_name, ((countsTable t).lookup (f, s, e.res_name)).getD 0),
    List.mem_map.mpr ⟨e.res_name, hr, rfl⟩, ?_⟩
  show 0 < ((countsTable t).lookup (f, s, e.res_name)).getD 0
  rw [countsTable_lookup]
  have hmem : e ∈ t.filter fun x =>
      x.frame == f && x.solvated_atom == s && x.res_name == e.res_name := by
    rw [List.mem_filter]
    exact ⟨he, by simp [hf, hs]⟩
  exact List.length_pos_of_mem hmem

/-- Every row of the shell-type distribution carries a shell vector with a
strictly positive column. -/
theorem speciation_percent_rows_pos {t : List Event} {nf ns : Nat} :
    ∀ g ∈ speciation_percent t nf ns, ∃ pr ∈ g.1, 0 < pr.2 := by
  intro g hg
  rw [speciation_percent] at hg
  rcases List.mem_map.mp hg with ⟨g0, hg0, rfl⟩
  rw [List.mem_insertionSort, shellGroups] at hg0
  rcases List.mem_map.mp hg0 with ⟨v, hv, rfl⟩
  rw [List.mem_dedup, shellRows] at hv
  rcases List.mem_map.mp hv with ⟨p, hp, rfl⟩
  rcases p with ⟨f, s⟩
  exact shellRow_has_pos hp

/-- C10: a (frame, solute) pair has a row in the speciation table iff it has
at least one coordination event; the shell row of every observed pair has a
strictly positive column; and every shell vector of the shell-type
distribution has a strictly positive column - so an empty shell contributes
no row and no all-zero shell vector anywhere. -/
theorem speciation_row_iff_event_no_zero_shell (t : List Event) (f s nf ns : Nat) :
    ((f, s) ∈ observedPairs t ↔ ∃ e ∈ t, e.frame = f ∧ e.solvated_atom = s)
      ∧ ((f, s) ∈ observedPairs t → ∃ pr ∈ shellRow t f s, 0 < pr.2)
      ∧ (∀ g ∈ speciation_percent t nf ns, ∃ pr ∈ g.1, 0 < pr.2) :=
  ⟨mem_observedPairs, fun h => shellRow_has_pos h,
    fun g hg => speciation_percent_rows_pos g hg⟩

/-- C10 witness: the statement evaluated on tC10 at (frame, solute) =
(0, 0) with one frame and one solute. -/
theorem speciation_row_iff_event_no_zero_shell_witness :
    ((0, 0) ∈ observedPairs tC10 ↔ ∃ e ∈ tC10, e.frame = 0 ∧ e.solvated_atom = 0)
      ∧ ((0, 0) ∈ observedPairs tC10 → ∃ pr ∈ shellRow tC10 0 0, 0 < pr.2)
      ∧ (∀ g ∈ speciation_percent tC10 1 1, ∃ pr ∈ g.1, 0 < pr.2) :=
  speciation_row_iff_event_no_zero_shell tC10 0 0 1 1

/-- C7: if the curve fit raises RuntimeError (fails to converge) for residue
type r while converging to parameters (a, b, c) for type r2, the residence
computation still completes: type r is reported with NaN residence time and
a triple of NaN parameters, and type r2 still receives its residence time
1/b and parameters - per-type failure never aborts the whole loop. -/
theorem residence_fit_failure_is_local (fit : List ℚ → Option (ℚ × ℚ × ℚ))
    (acovOf : String → List ℚ) (t : List Event) (r r2 : String) (a b c : ℚ)
    (hr : r ∈ resNames t) (hfail : fit (normCurve (acovOf r)) = none)
    (hr2 : r2 ∈ resNames t) (hok : fit (normCurve (acovOf r2)) = some (a, b, c)) :
    (calculate_residence_coordination fit acovOf t).1.lookup r = some none
      ∧ (calculate_residence_coordination fit acovOf t).2.lookup r
          = some (none, none, none)
      ∧ (calculate_residence_coordination fit acovOf t).1.lookup r2
          = some (some (1 / b))
      ∧ (calculate_residence_coordination fit acovOf t).2.lookup r2
          = some (some a, some b, some c) := by
  refine ⟨?_, ?_, ?_, ?_⟩
  · simp only [calculate_residence_coordination]
    rw [lookup_map_self (fun x => (calculate_residence_time fit (acovOf x)).1) hr]
    simp [calculate_residence_time, hfail]
  · simp only [calculate_residence_coordination]
    rw [lookup_map_self (fun x => (calculate_residence_time fit (acovOf x)).2) hr]
    simp [calculate_residence_time, hfail]
  · simp only [calculate_residence_coordination]
    rw [lookup_map_self (fun x => (calculate_residence_time fit (acovOf x)).1) hr2]
    simp [calculate_residence_time, hok]
  · simp only [calculate_residence_coordination]
    rw [lookup_map_self (fun x => (calculate_residence_time fit (acovOf x)).2) hr2]
    simp [calculate_residence_time, hok]

/-- C7 witness: with the oracle fitC7 failing exactly on the one-point
normalised curve of type A and converging to (1, 2, 0) on the curve of type
B, type A is reported as NaN and type B as residence time 1/2. -/
theorem residence_fit_failure_is_local_witness :
    (calculate_residence_coordination fitC7 acovC7 tC7).1.lookup "A" = some none
      ∧ (calculate_residence_coordination fitC7 acovC7 tC7).2.lookup "A"
          = some (none, none, none)
      ∧ (calculate_residence_coordination fitC7 acovC7 tC7).1.lookup "B"
          = some (some (1 / 2))
      ∧ (calculate_residence_coordination fitC7 acovC7 tC7).2.lookup "B"
          = some (some 1, some 2, some 0) :=
  residence_fit_failure_is_local fitC7 acovC7 tC7 "A" "B" 1 2 0
    (by decide) (by decide) (by decide) (by decide)

end SolvAna
